import Mathlib

/-!
Shallow embedding of the smartvaults multi-signature Bitcoin custody
protocol: the signer data model (`smartvaults-core/src/signer.rs`), the
v2 protocol identifiers and invite events
(`smartvaults-protocol/src/v2/signer/*`, `.../vault/invite.rs`), the
SQLite-backed index (`coinstr-sdk/src/db/store/mod.rs`,
`coinstr-sdk-sqlite/src/store/signers.rs`) and the client operations
(`smartvaults-sdk/src/client/mod.rs`: `internal_spend`, `finalize`,
`delete_vault_by_id`, `delete_proposal_by_id`).

Machine integers, hashes, keys, ciphertexts and transactions are
abstracted to `Nat`-based data; fallible operations return `Except`.
Definitions whose bodies are in the repository are translated from the
source; the few pieces whose code is outside the provided sources are
modelled from the specification and marked `Modelled from the spec:` in
their doc comments.
-/

/-! ## Basic abstractions -/

/-- Nostr event id (32-byte hash abstracted to a number). -/
abbrev EvId := Nat

/-- Nostr x-only public key (abstracted). -/
abbrev PubKey := Nat

/-- Unix timestamp in seconds. -/
abbrev Tstamp := Nat

/-- A transaction output reference: (txid, vout). -/
abbrev TxOutPoint := Nat × Nat

/-- BIP32 master fingerprint (4 bytes abstracted to a number). -/
abbrev Fingerprint := Nat

/-- Derivation of the x-only public key from a secret key.  The real
function is secp256k1 point multiplication; the embedding only needs it
to be a function (and injectivity is not assumed anywhere). -/
def pubkeyOf (secretKey : Nat) : PubKey := secretKey + 1

/-- Nostr keypair (`nostr::Keys`): stores the secret key; the public key
is derived. -/
structure Keys where
  secretKey : Nat
deriving DecidableEq, Repr

def Keys.publicKey (k : Keys) : PubKey := pubkeyOf k.secretKey

/-! ## Bitcoin network and BIP32 paths (`smartvaults-core`) -/

/-- `bitcoin::Network`. -/
inductive Network
  | bitcoin
  | testnet
  | signet
  | regtest
deriving DecidableEq, Repr

/-- `bip32::ChildNumber`: a single derivation-path component. -/
inductive ChildNumber
  | normal (index : Nat)
  | hardened (index : Nat)
deriving DecidableEq, Repr

/-- `keechain_core::Purpose`, restricted to the three purposes used by
`smartvaults-core/src/signer.rs` (`PURPOSES`). -/
inductive Purpose
  | bip86
  | bip48woosh
  | bip48tr
deriving DecidableEq, Repr

/-- The `PURPOSES` constant of `smartvaults-core/src/signer.rs`:
BIP86, BIP48/P2WSH, BIP48/P2TR. -/
def PURPOSES : List Purpose := [Purpose.bip86, Purpose.bip48woosh, Purpose.bip48tr]

/-- `miniscript::DescriptorPublicKey`, reduced to the data read by
`CoreSigner::new`: the master fingerprint, the (optional) full
derivation path, and an opaque remainder (`keyData`) standing for the
key material itself. -/
structure DescriptorPublicKey where
  master_fingerprint : Fingerprint
  full_derivation_path : Option (List ChildNumber)
  keyData : Nat
deriving DecidableEq, Repr

/-- `smartvaults_core::signer::Error` (the domain variants; the wrapped
library errors are irrelevant to the claims). -/
inductive CoreSignerError
  | fingerprintNotMatch
  | networkNotMatch
  | derivationPathNotFound
deriving DecidableEq, Repr

/-- The network check inside `CoreSigner::new`: skip the purpose
component, then the next component must be hardened with index 0 on
mainnet and index 1 on any other network. -/
def networkCoinTypeOk (network : Network) (path : List ChildNumber) : Bool :=
  match path.drop 1 with
  | ChildNumber.hardened index :: _ =>
      match network with
      | Network.bitcoin => index == 0
      | _ => index == 1
  | _ => false

/-- The per-descriptor validation loop body of `CoreSigner::new`:
fingerprint check, then path resolution, then coin-type check. -/
def checkDescriptor (fingerprint : Fingerprint) (network : Network)
    (d : DescriptorPublicKey) : Except CoreSignerError Unit :=
  if fingerprint ≠ d.master_fingerprint then
    Except.error CoreSignerError.fingerprintNotMatch
  else
    match d.full_derivation_path with
    | none => Except.error CoreSignerError.derivationPathNotFound
    | some path =>
        if networkCoinTypeOk network path then Except.ok ()
        else Except.error CoreSignerError.networkNotMatch

/-- Running `checkDescriptor` over all descriptor values, first error
wins (the `for` loop with early `return Err`). -/
def checkDescriptors (fingerprint : Fingerprint) (network : Network) :
    List DescriptorPublicKey → Except CoreSignerError Unit
  | [] => Except.ok ()
  | d :: rest =>
      match checkDescriptor fingerprint network d with
      | Except.ok () => checkDescriptors fingerprint network rest
      | Except.error e => Except.error e

/-- `smartvaults_core::signer::CoreSigner`: fingerprint plus per-purpose
public-key descriptors (a `BTreeMap` embedded as an association list). -/
structure CoreSigner where
  fingerprint : Fingerprint
  descriptors : List (Purpose × DescriptorPublicKey)
deriving DecidableEq, Repr

/-- `CoreSigner::new`: validates every descriptor against the supplied
fingerprint and network, then composes the signer. -/
def CoreSigner.new (fingerprint : Fingerprint)
    (descriptors : List (Purpose × DescriptorPublicKey)) (network : Network) :
    Except CoreSignerError CoreSigner :=
  match checkDescriptors fingerprint network (descriptors.map Prod.snd) with
  | Except.ok () => Except.ok { fingerprint := fingerprint, descriptors := descriptors }
  | Except.error e => Except.error e

/-- A seed, reduced to what `CoreSigner::from_seed` reads from it: its
fingerprint on a network and its descriptor derivation (the keechain
`to_descriptor` collaborator, abstracted as a total function of the
account and the purpose). -/
structure Seed where
  seedFingerprint : Network → Fingerprint
  derive : Option Nat → Purpose → DescriptorPublicKey

/-- `CoreSigner::from_seed`: derive a descriptor for each of the three
`PURPOSES`, then delegate to `CoreSigner::new` with the seed's
fingerprint. -/
def CoreSigner.from_seed (seed : Seed) (account : Option Nat) (network : Network) :
    Except CoreSignerError CoreSigner :=
  CoreSigner.new (seed.seedFingerprint network)
    (PURPOSES.map (fun p => (p, seed.derive account p))) network

/-! ## v2 protocol: signers, identifiers, invite events
(`smartvaults-protocol/src/v2/signer/mod.rs`, `signer/shared.rs`,
`vault/invite.rs`) -/

/-- Executable stand-in abstracting SHA-256 over a string
(`smartvaults_core::crypto::hash::sha256`).  Every theorem below depends
only on which fields feed the hash, never on concrete hash values. -/
def sha256 (s : String) : Nat :=
  s.foldl (fun a c => (a * 131 + c.toNat + 1) % (2 ^ 256)) 7

/-- Hexadecimal rendering of a number (the `Display` of hashes,
fingerprints and public keys). -/
def hexString (n : Nat) : String := (Nat.toDigits 16 n).asString

/-- The network magic rendered as in `Network::magic()` `Display`. -/
def networkMagic : Network → String
  | Network.bitcoin => "f9beb4d9"
  | Network.testnet => "0b110907"
  | Network.signet => "0a03cf40"
  | Network.regtest => "fabfb5da"

/-- The network name rendered as in `Network` `Display`. -/
def networkName : Network → String
  | Network.bitcoin => "bitcoin"
  | Network.testnet => "testnet"
  | Network.signet => "signet"
  | Network.regtest => "regtest"

/-- `SignerType` of `smartvaults-protocol/src/v2/signer/mod.rs`. -/
inductive SignerType
  | seed
  | hardware
  | airGap
deriving DecidableEq, Repr

/-- The v2 `Signer`: metadata plus the core signer data reachable
through its `Deref` to `CoreSigner` (fingerprint, network,
descriptors). -/
structure Signer where
  name : String
  description : String
  signerType : SignerType
  network : Network
  fingerprint : Fingerprint
  descriptors : List (Purpose × DescriptorPublicKey)
deriving DecidableEq, Repr

/-- `Signer::generate_identifier`: the first 32 hex characters of the
SHA-256 of `"{network magic}:{fingerprint}"`. -/
def Signer.generate_identifier (s : Signer) : String :=
  let unhashed : String := networkMagic s.network ++ ":" ++ hexString s.fingerprint
  (hexString (sha256 unhashed)).take 32

/-- Deterministic public identifier (`NostrPublicIdentifier`), a SHA-256
hash abstracted to a number. -/
abbrev NostrPublicIdentifier := Nat

/-- The v2 `SharedSigner`: owner, receiver, and the core signer data
reachable through its `Deref` to `CoreSigner`. -/
structure SharedSigner where
  owner : PubKey
  receiver : PubKey
  network : Network
  fingerprint : Fingerprint
  descriptors : List (Purpose × DescriptorPublicKey)
deriving DecidableEq, Repr

/-- `SharedSigner::nostr_public_identifier`: the SHA-256 of
`"shared-signer:{owner}:{receiver}:{fingerprint}:{network}"`. -/
def SharedSigner.nostr_public_identifier (s : SharedSigner) : NostrPublicIdentifier :=
  let unhashed : String := "shared-signer:" ++ hexString s.owner ++ ":" ++
    hexString s.receiver ++ ":" ++ hexString s.fingerprint ++ ":" ++ networkName s.network
  sha256 unhashed

/-- A v2 `Vault`: descriptor, network and the shared secret key all
co-owners hold. -/
structure Vault where
  descriptor : String
  network : Network
  sharedSecretKey : Nat
deriving DecidableEq, Repr

/-- `VaultInvite` (`smartvaults-protocol/src/v2/vault/invite.rs`). -/
structure VaultInvite where
  vault : Vault
  sender : Option PubKey
  message : String
  timestamp : Tstamp
deriving DecidableEq, Repr

/-- The `Wrapper` envelope payload. -/
inductive Wrapper
  | sharedSignerInvite (shared_signer : SharedSigner)
  | vaultInvite (invite : VaultInvite)
deriving DecidableEq, Repr

/-- `Wrapper::encrypt(secret_key, receiver_public_key)`: a NIP44-style
ciphertext kept structured so theorems can talk about which key it was
encrypted to. -/
structure WrapperCiphertext where
  senderSecret : Nat
  receiver : PubKey
  plain : Wrapper
deriving DecidableEq, Repr

/-- Nostr event tags used by the embedded builders. -/
inductive Tag
  | publicKey (pk : PubKey)
  | expiration (t : Tstamp)
  | identifier (d : String)
  | eventRef (id : EvId)
deriving DecidableEq, Repr

/-- A built wrapper event, as produced by the invite builders. -/
structure WrapperEvent where
  author : PubKey
  createdAt : Tstamp
  kind : Nat
  content : WrapperCiphertext
  tags : List Tag
deriving DecidableEq, Repr

/-- Modelled from the spec: `WRAPPER_KIND` lives in the v2 `constants`
module, which is not under the provided sources; it is a fixed protocol
kind number for wrapper envelopes and its concrete value is irrelevant
to the claims. -/
def WRAPPER_KIND : Nat := 50001

/-- Modelled from the spec: `WRAPPER_EXIPRATION` (spelling as in the
source imports) lives in the v2 `constants` module, which is not under
the provided sources; the spec only requires an expiration "so relays
may prune them", i.e. a positive duration. -/
def WRAPPER_EXIPRATION : Nat := 604800

/-- `build_invitation_event` of `signer/shared.rs`.  The effects
`Keys::generate()` and `Timestamp::now()` are passed explicitly as
`freshKeys` and `now`. -/
def build_invitation_event (shared_signer : SharedSigner) (freshKeys : Keys)
    (now : Tstamp) : WrapperEvent :=
  let wrapper : Wrapper := Wrapper.sharedSignerInvite shared_signer
  { author := freshKeys.publicKey
    createdAt := now
    kind := WRAPPER_KIND
    content := { senderSecret := freshKeys.secretKey
                 receiver := shared_signer.receiver
                 plain := wrapper }
    tags := [Tag.publicKey shared_signer.receiver,
             Tag.expiration (now + WRAPPER_EXIPRATION)] }

/-- `build_event` of `vault/invite.rs`.  The effects `Keys::generate()`
and `Timestamp::now()` are passed explicitly. -/
def VaultInvite.build_event (invite : VaultInvite) (receiver : PubKey)
    (freshKeys : Keys) (now : Tstamp) : WrapperEvent :=
  let wrapper : Wrapper := Wrapper.vaultInvite invite
  { author := freshKeys.publicKey
    createdAt := now
    kind := WRAPPER_KIND
    content := { senderSecret := freshKeys.secretKey
                 receiver := receiver
                 plain := wrapper }
    tags := [Tag.publicKey receiver,
             Tag.expiration (now + WRAPPER_EXIPRATION)] }

/-! ## Association-list tables ("INSERT OR IGNORE" and lookups) -/

/-- `INSERT OR IGNORE` into a table keyed by the first component: if the
key is already present the table is unchanged, otherwise the row is
appended. -/
def insertOrIgnore {α β : Type} [DecidableEq α] (table : List (α × β)) (key : α)
    (value : β) : List (α × β) :=
  if table.any (fun r => decide (r.fst = key)) then table else table ++ [(key, value)]

/-- `SELECT ... WHERE key = ? LIMIT 1`: the first row with the given
key. -/
def lookupRow {α β : Type} [DecidableEq α] : List (α × β) → α → Option β
  | [], _ => none
  | r :: rest, key => if r.fst = key then some r.snd else lookupRow rest key

/-- Insertion into a table with plain set semantics (used for the
frozen-UTXO rows). -/
def insertSet {α : Type} [DecidableEq α] (table : List α) (row : α) : List α :=
  if row ∈ table then table else table ++ [row]

/-- Replace-by-identifier upsert: a later write with the same key
supersedes the earlier row. -/
def insertOrReplace {α β : Type} [DecidableEq α] (table : List (α × β)) (key : α)
    (value : β) : List (α × β) :=
  if table.any (fun r => decide (r.fst = key)) then
    table.map (fun r => if r.fst = key then (key, value) else r)
  else table ++ [(key, value)]

/-! ## The SQLite-backed index (`coinstr-sdk/src/db/store/mod.rs`,
`coinstr-sdk-sqlite/src/store/signers.rs`) -/

/-- A v1 spending proposal as stored: the input outpoints of
`psbt().unsigned_tx` plus an opaque remainder (destination, amount,
description, the rest of the PSBT). -/
structure ProposalV1 where
  psbtInputs : List TxOutPoint
  payload : Nat
deriving DecidableEq, Repr

/-- A row of the `approved_proposals` table. -/
structure ApprovedProposalRow where
  proposal_id : EvId
  public_key : PubKey
  approved_proposal : Nat
  timestamp : Tstamp
deriving DecidableEq, Repr

/-- A row of the `frozen_utxos` table: the outpoint, the vault (policy)
it belongs to and the pending proposal that claimed it. -/
structure FrozenUtxoRow where
  utxo : TxOutPoint
  policy_id : EvId
  proposal_id : Option EvId
deriving DecidableEq, Repr

/-- The store tables touched by the claims.  `proposals` maps
proposal_id to (policy_id, proposal); `events` maps event_id to its
`deleted` tombstone flag; `signers` and `notifications` keep opaque
blobs. -/
structure Store where
  proposals : List (EvId × (EvId × ProposalV1))
  approvedProposals : List (EvId × ApprovedProposalRow)
  frozenUtxos : List FrozenUtxoRow
  signers : List (EvId × Nat)
  events : List (EvId × Bool)
  notifications : List (EvId × Nat)
deriving DecidableEq, Repr

def Store.empty : Store :=
  { proposals := [], approvedProposals := [], frozenUtxos := [],
    signers := [], events := [], notifications := [] }

/-- Modelled from the spec: `Store::freeze_utxo` lives in
`db/store/utxos.rs`, which is not under the provided sources; per the
spec the frozen-UTXO set records the UTXOs claimed by in-flight pending
proposals, so freezing adds the (utxo, policy, proposal) row to the
table, set-semantics. -/
def Store.freeze_utxo (s : Store) (utxo : TxOutPoint) (policy_id : EvId)
    (proposal_id : Option EvId) : Store :=
  { s with frozenUtxos :=
      insertSet s.frozenUtxos (FrozenUtxoRow.mk utxo policy_id proposal_id) }

/-- Modelled from the spec: `Store::get_frozen_utxos` (also in
`db/store/utxos.rs`) returns the set of outpoints frozen for one
vault. -/
def Store.get_frozen_utxos (s : Store) (policy_id : EvId) : List TxOutPoint :=
  (s.frozenUtxos.filter (fun r => decide (r.policy_id = policy_id))).map
    FrozenUtxoRow.utxo

/-- `Store::save_proposal`: `INSERT OR IGNORE` of the proposal row, then
freeze every input outpoint of the proposal's unsigned transaction. -/
def Store.save_proposal (s : Store) (proposal_id policy_id : EvId)
    (proposal : ProposalV1) : Store :=
  let s1 : Store :=
    { s with proposals := insertOrIgnore s.proposals proposal_id (policy_id, proposal) }
  proposal.psbtInputs.foldl
    (fun acc txin => acc.freeze_utxo txin policy_id (some proposal_id)) s1

/-- `Store::save_approved_proposal`: `INSERT OR IGNORE` keyed by the
approval id. -/
def Store.save_approved_proposal (s : Store) (proposal_id : EvId) (author : PubKey)
    (approval_id : EvId) (approved_proposal : Nat) (timestamp : Tstamp) : Store :=
  let row : ApprovedProposalRow :=
    ApprovedProposalRow.mk proposal_id author approved_proposal timestamp
  { s with approvedProposals := insertOrIgnore s.approvedProposals approval_id row }

/-- `Store::save_signer` (`coinstr-sdk-sqlite/src/store/signers.rs`):
`INSERT OR IGNORE` keyed by the signer id. -/
def Store.save_signer (s : Store) (signer_id : EvId) (signerBlob : Nat) : Store :=
  { s with signers := insertOrIgnore s.signers signer_id signerBlob }

/-- `Store::set_event_as_deleted`: `UPDATE events SET deleted = 1 WHERE
event_id = ?`. -/
def Store.set_event_as_deleted (s : Store) (event_id : EvId) : Store :=
  { s with events := s.events.map (fun r => if r.fst = event_id then (r.fst, true) else r) }

/-- `Store::event_was_deleted`. -/
def Store.event_was_deleted (s : Store) (event_id : EvId) : Bool :=
  s.events.any (fun r => decide (r.fst = event_id) && r.snd)

/-- `Store::delete_notification`. -/
def Store.delete_notification (s : Store) (event_id : EvId) : Store :=
  { s with notifications := s.notifications.filter (fun r => decide (r.fst ≠ event_id)) }

/-- `Store::delete_proposal`: tombstone the event id, drop the
notification, then delete the proposal row, its approvals and its
frozen UTXOs. -/
def Store.delete_proposal (s : Store) (proposal_id : EvId) : Store :=
  let s1 : Store := s.set_event_as_deleted proposal_id
  let s2 : Store := s1.delete_notification proposal_id
  { s2 with
    proposals := s2.proposals.filter (fun r => decide (r.fst ≠ proposal_id))
    approvedProposals :=
      s2.approvedProposals.filter (fun r => decide (r.snd.proposal_id ≠ proposal_id))
    frozenUtxos :=
      s2.frozenUtxos.filter (fun r => decide (r.proposal_id ≠ some proposal_id)) }

/-! ## Spending path (`smartvaults-sdk/src/client/mod.rs`:
`internal_spend`) -/

/-- Client error kinds reached by the embedded operations
(`smartvaults-sdk` `Error`). -/
inductive ClientError
  | notFound
  | tryingToDeleteNotOwnedEvent
  | invalidFeeRate
  | proposalAlreadyFinalized
  | notEnoughApprovals
  | broadcastFailed
  | publishFailed
deriving DecidableEq, Repr

/-- Modelled from the spec: `FeeRate` lives in `smartvaults-core`, not
under the provided sources; it is either a priority (a fee-estimation
target in blocks) or an explicit rate in sat/vbyte. -/
inductive FeeRate
  | priority (targetBlocks : Nat)
  | rate (satPerVb : Nat)
deriving DecidableEq, Repr

/-- Modelled from the spec: `FeeRate::is_valid` rejects "a fee rate of
zero or a malformed priority". -/
def FeeRate.is_valid : FeeRate → Bool
  | FeeRate.priority t => decide (0 < t)
  | FeeRate.rate r => decide (0 < r)

/-- The wallet/chain-backend calls `internal_spend` can issue, logged in
order. -/
inductive BackendCall
  | estimateFee (targetBlocks : Nat)
  | readFrozenUtxos (vault_id : EvId)
  | readWalletUtxos (vault_id : EvId)
  | buildTransaction (vault_id : EvId)
deriving DecidableEq, Repr

/-- The wallet backend's observable state: fee estimation and the
vault wallet's current UTXO set. -/
structure WalletEnv where
  feeEstimate : Nat → Nat
  walletUtxos : List TxOutPoint

/-- A built spending proposal, reduced to the input outpoints its PSBT
selected. -/
structure SpendingProposal where
  psbtInputs : List TxOutPoint
deriving DecidableEq, Repr

/-- Modelled from the spec: `Manager::spend` (the wallet-backend
`build_unsigned` collaborator, not under the provided sources) builds a
transaction "honoring ... exclusion of any currently-frozen UTXOs":
inputs are selected among the wallet's UTXOs (restricted to the
caller-specified set when one is given) minus the exclusions. -/
def buildSpendingTx (wallet : List TxOutPoint) (manualUtxos : Option (List TxOutPoint))
    (exclusions : List TxOutPoint) : List TxOutPoint :=
  let candidates : List TxOutPoint :=
    match manualUtxos with
    | some us => us
    | none => wallet
  candidates.filter (fun o => decide (o ∈ wallet) && !(decide (o ∈ exclusions)))

/-- The frozen-UTXO exclusions computed by `internal_spend`: `None` when
`skip_frozen_utxos`, otherwise the wallet UTXOs whose outpoint is in the
vault's frozen set. -/
def spendExclusions (env : WalletEnv) (store : Store) (vault_id : EvId)
    (skip_frozen_utxos : Bool) : Option (List TxOutPoint) :=
  if skip_frozen_utxos then none
  else
    let set : List TxOutPoint := store.get_frozen_utxos vault_id
    some (env.walletUtxos.filter (fun u => decide (u ∈ set)))

/-- `SmartVaults::internal_spend`: validate the fee rate first, resolve
a priority fee against the backend, compute the frozen-UTXO exclusions
unless skipped, then ask the wallet backend to build the spending
proposal.  Returns the backend calls issued (in order) next to the
result.  The destination and policy path are opaque pass-through
arguments and are omitted. -/
def SmartVaults.internal_spend (env : WalletEnv) (store : Store) (vault_id : EvId)
    (fee_rate : FeeRate) (utxos : Option (List TxOutPoint))
    (skip_frozen_utxos : Bool) :
    List BackendCall × Except ClientError SpendingProposal :=
  if fee_rate.is_valid = false then
    ([], Except.error ClientError.invalidFeeRate)
  else
    let feeCalls : List BackendCall :=
      match fee_rate with
      | FeeRate.priority t => [BackendCall.estimateFee t]
      | FeeRate.rate _ => []
    let frozenCalls : List BackendCall :=
      if skip_frozen_utxos then []
      else [BackendCall.readFrozenUtxos vault_id, BackendCall.readWalletUtxos vault_id]
    let exclusions : Option (List TxOutPoint) :=
      spendExclusions env store vault_id skip_frozen_utxos
    let inputs : List TxOutPoint :=
      buildSpendingTx env.walletUtxos utxos (exclusions.getD [])
    (feeCalls ++ frozenCalls ++ [BackendCall.buildTransaction vault_id],
     Except.ok (SpendingProposal.mk inputs))

/-- The store-level transitions of the spending-proposal lifecycle: a
pending spending proposal is created through `internal_spend` (with
`skip_frozen_utxos = false`) and saved via `Store::save_proposal`, or a
proposal is deleted via `Store::delete_proposal`. -/
inductive SpendStep : Store → Store → Prop
  | create (env : WalletEnv) (store : Store) (vault_id proposal_id : EvId)
      (fee_rate : FeeRate) (utxos : Option (List TxOutPoint))
      (sp : SpendingProposal) (payload : Nat)
      (hspend : (SmartVaults.internal_spend env store vault_id fee_rate utxos
        false).snd = Except.ok sp) :
      SpendStep store
        (store.save_proposal proposal_id vault_id (ProposalV1.mk sp.psbtInputs payload))
  | delete (store : Store) (proposal_id : EvId) :
      SpendStep store (store.delete_proposal proposal_id)

/-- The per-vault frozen-set invariant: every input of every indexed
pending proposal is frozen for its vault (tagged with its proposal id),
and the inputs of two distinct pending proposals of one vault are
disjoint. -/
def SpendInv (s : Store) : Prop :=
  (∀ r ∈ s.proposals, ∀ o ∈ r.snd.snd.psbtInputs,
      FrozenUtxoRow.mk o r.snd.fst (some r.fst) ∈ s.frozenUtxos) ∧
  (∀ r1 ∈ s.proposals, ∀ r2 ∈ s.proposals,
      r1.fst ≠ r2.fst → r1.snd.fst = r2.snd.fst →
      ∀ o ∈ r1.snd.snd.psbtInputs, o ∉ r2.snd.snd.psbtInputs)

/-! ## v2 client (`smartvaults-sdk/src/client/mod.rs`: `finalize`,
`delete_vault_by_id`, `delete_proposal_by_id`) -/

/-- Proposal state: the v2 state machine Pending → Completed. -/
inductive ProposalStatus
  | pending
  | completed
deriving DecidableEq, Repr

/-- Modelled from the spec: the v2 `Proposal` (the `proposal` module of
`smartvaults-protocol/src/v2` is not under the provided sources).  Per
the spec data model it carries its vault id, its Pending/Completed
state, its kind (spending vs proof-of-reserve), and its transaction;
the descriptor spending policy is abstracted to the approval threshold
it requires. -/
structure ProposalV2 where
  vault_id : EvId
  status : ProposalStatus
  isSpendingKind : Bool
  threshold : Nat
  txPayload : Nat
deriving DecidableEq, Repr

/-- `InternalApproval` of the v2 storage: the approver's public key, the
approval (reduced to the proposal id it is bound to plus an opaque
payload) and its timestamp. -/
structure InternalApproval where
  public_key : PubKey
  approval_proposal_id : EvId
  approvalPayload : Nat
  timestamp : Tstamp
deriving DecidableEq, Repr

/-- Modelled from the spec: v2 `Proposal::finalize` combines the given
approvals into the proposal.  A proposal whose state is already
Completed is detected by the state check and rejected with
`ProposalAlreadyFinalized` (the variant of the v2 error enum in
`smartvaults-protocol/src/v2/error.rs`); if the approvals do not
satisfy the descriptor policy (abstracted: fewer distinct approvers
than the threshold) it fails with `NotEnoughApprovals`; otherwise the
proposal transitions to Completed. -/
def ProposalV2.finalizeWith (p : ProposalV2) (approvals : List InternalApproval) :
    Except ClientError ProposalV2 :=
  if p.status = ProposalStatus.completed then
    Except.error ClientError.proposalAlreadyFinalized
  else if p.threshold ≤ ((approvals.map InternalApproval.public_key).dedup).length then
    Except.ok { p with status := ProposalStatus.completed }
  else
    Except.error ClientError.notEnoughApprovals

/-- Modelled from the spec: `Proposal::is_broadcastable` — a completed
spending proposal carries a final transaction to broadcast; pending and
proof-of-reserve proposals do not. -/
def ProposalV2.is_broadcastable (p : ProposalV2) : Bool :=
  decide (p.status = ProposalStatus.completed) && p.isSpendingKind

/-- A row of the nostr event database (`client.database()`), reduced to
the fields the delete operations filter on. -/
structure NostrDbEvent where
  eid : EvId
  author : PubKey
  kind : Nat
  identifier : String
deriving DecidableEq, Repr

/-- Events the client sends to the relays. -/
inductive OutEvent
  | proposalEvent (sharedKeyPub : PubKey) (proposal_id : EvId) (p : ProposalV2)
  | deletionEvent (author : PubKey) (target : EvId)
deriving DecidableEq, Repr

/-- Modelled from the spec: `PROPOSAL_KIND_V2` (v2 `constants` module,
not under the provided sources); a fixed protocol kind number whose
concrete value is irrelevant to the claims. -/
def PROPOSAL_KIND_V2 : Nat := 32130

/-- The client state: own keys, the in-memory v2 indexes (vaults,
proposals, approvals), the nostr event database, and the outward
effects (published events, broadcast transactions). -/
structure SmartVaults where
  myKeys : Keys
  vaults : List (EvId × Vault)
  proposals : List (EvId × ProposalV2)
  approvals : List (EvId × InternalApproval)
  eventsDb : List NostrDbEvent
  published : List OutEvent
  broadcasts : List Nat
deriving DecidableEq, Repr

/-- The approvals indexed for one proposal
(`storage.approvals_by_proposal_id`). -/
def SmartVaults.approvalsOf (s : SmartVaults) (proposal_id : EvId) :
    List InternalApproval :=
  (s.approvals.filter
    (fun r => decide (r.snd.approval_proposal_id = proposal_id))).map Prod.snd

/-- The external outcomes of the two fallible network effects inside
`finalize`: whether the blockchain backend accepts the broadcast and
whether the relays accept the published event. -/
structure RelayChainEnv where
  broadcastOk : Bool
  publishOk : Bool
deriving DecidableEq, Repr

/-- The tail of `finalize` after a (possible) broadcast: compose and
publish the updated proposal event, then re-index the proposal
(replace-by-identifier, per the spec: "same deterministic id, new
content").  The relay publish is fallible; on failure the index is not
touched. -/
def finalizePublish (env : RelayChainEnv) (s : SmartVaults) (vault : Vault)
    (proposal_id : EvId) (p2 : ProposalV2) : Except ClientError Unit × SmartVaults :=
  if env.publishOk then
    let ev : OutEvent := OutEvent.proposalEvent (pubkeyOf vault.sharedSecretKey) proposal_id p2
    let s2 : SmartVaults := { s with published := s.published ++ [ev] }
    (Except.ok (),
     { s2 with proposals := insertOrReplace s2.proposals proposal_id p2 })
  else (Except.error ClientError.publishFailed, s)

/-- `SmartVaults::finalize`: gather the proposal, its approvals and its
vault; combine the approvals (the policy check); broadcast the final
transaction when the result is broadcastable; only then publish the
updated proposal event and re-index it.  Every failure returns the
error with the state accumulated so far (the opportunistic
`insert_tx` wallet-cache write is logged-only/non-fatal in the source
and is outside this model). -/
def SmartVaults.finalize (env : RelayChainEnv) (s : SmartVaults) (proposal_id : EvId) :
    Except ClientError Unit × SmartVaults :=
  match lookupRow s.proposals proposal_id with
  | none => (Except.error ClientError.notFound, s)
  | some p =>
    match lookupRow s.vaults p.vault_id with
    | none => (Except.error ClientError.notFound, s)
    | some vault =>
      match p.finalizeWith (s.approvalsOf proposal_id) with
      | Except.error e => (Except.error e, s)
      | Except.ok p2 =>
        if p2.is_broadcastable then
          if env.broadcastOk then
            let s1 : SmartVaults := { s with broadcasts := s.broadcasts ++ [p2.txPayload] }
            finalizePublish env s1 vault proposal_id p2
          else (Except.error ClientError.broadcastFailed, s)
        else finalizePublish env s vault proposal_id p2

/-- `SmartVaults::delete_vault_by_id`: fetch the vault event from the
nostr database; only when its author is the user's own public key is a
deletion event published and the vault removed from the index
(`policy_id`/`keys` are written as the evident `event_id`/`self.keys`;
the `manager.unload_policy` call has no index effect). -/
def SmartVaults.delete_vault_by_id (s : SmartVaults) (event_id : EvId) :
    Except ClientError Unit × SmartVaults :=
  match s.eventsDb.find? (fun e => decide (e.eid = event_id)) with
  | none => (Except.error ClientError.notFound, s)
  | some ev =>
    if ev.author = s.myKeys.publicKey then
      let del : OutEvent := OutEvent.deletionEvent s.myKeys.publicKey event_id
      let s1 : SmartVaults := { s with published := s.published ++ [del] }
      (Except.ok (),
       { s1 with vaults := s1.vaults.filter (fun r => decide (r.fst ≠ event_id)) })
    else (Except.error ClientError.tryingToDeleteNotOwnedEvent, s)

/-- `SmartVaults::delete_proposal_by_id`: load the proposal and its
vault, query the nostr database for the proposal event — filtered by
kind `PROPOSAL_KIND_V2`, author = the vault's shared key, and the
proposal identifier — then, if the (necessarily shared-key-authored)
event is found, publish a deletion signed by the shared key and drop
the proposal from the index. -/
def SmartVaults.delete_proposal_by_id (s : SmartVaults) (proposal_id : EvId) :
    Except ClientError Unit × SmartVaults :=
  match lookupRow s.proposals proposal_id with
  | none => (Except.error ClientError.notFound, s)
  | some p =>
    match lookupRow s.vaults p.vault_id with
    | none => (Except.error ClientError.notFound, s)
    | some vault =>
      let sharedPub : PubKey := pubkeyOf vault.sharedSecretKey
      let hits : List NostrDbEvent := s.eventsDb.filter (fun e =>
        decide (e.kind = PROPOSAL_KIND_V2) && decide (e.author = sharedPub) &&
        decide (e.identifier = hexString proposal_id))
      match hits.head? with
      | none => (Except.error ClientError.notFound, s)
      | some pev =>
        if pev.author = sharedPub then
          let del : OutEvent := OutEvent.deletionEvent sharedPub pev.eid
          let s1 : SmartVaults := { s with published := s.published ++ [del] }
          (Except.ok (),
           { s1 with proposals := s1.proposals.filter (fun r => decide (r.fst ≠ proposal_id)) })
        else (Except.error ClientError.tryingToDeleteNotOwnedEvent, s)

/-! ## Concrete states used below for evaluation -/

/-- A concrete vault (shared secret key 9, so shared public key 10). -/
def vaultA : Vault :=
  { descriptor := "wsh", network := Network.bitcoin, sharedSecretKey := 9 }

/-- A concrete proposal already in the Completed state. -/
def propCompleted : ProposalV2 :=
  { vault_id := 5, status := ProposalStatus.completed, isSpendingKind := true,
    threshold := 2, txPayload := 42 }

/-- A concrete pending proposal requiring two approvals. -/
def propPending : ProposalV2 :=
  { vault_id := 5, status := ProposalStatus.pending, isSpendingKind := true,
    threshold := 2, txPayload := 42 }

/-- A network environment where broadcast and publish both succeed. -/
def envOk : RelayChainEnv := { broadcastOk := true, publishOk := true }

/-- Client state holding `vaultA` and the already-completed proposal
under identifier 7. -/
def stCompleted : SmartVaults :=
  { myKeys := Keys.mk 1, vaults := [(5, vaultA)], proposals := [(7, propCompleted)],
    approvals := [], eventsDb := [], published := [], broadcasts := [] }

/-- Client state holding `vaultA` and the pending proposal under
identifier 7, with no approvals indexed. -/
def stPending : SmartVaults :=
  { myKeys := Keys.mk 1, vaults := [(5, vaultA)], proposals := [(7, propPending)],
    approvals := [], eventsDb := [], published := [], broadcasts := [] }

/-- The pending proposal after a successful combine: same data, now
Completed. -/
def propPendingDone : ProposalV2 :=
  { vault_id := 5, status := ProposalStatus.completed, isSpendingKind := true,
    threshold := 2, txPayload := 42 }

/-- Client state with the pending proposal and two approvals from
distinct public keys, enough for its threshold of 2. -/
def stTwoApprovals : SmartVaults :=
  { myKeys := Keys.mk 1, vaults := [(5, vaultA)], proposals := [(7, propPending)],
    approvals := [(30, InternalApproval.mk 2 7 0 0), (31, InternalApproval.mk 3 7 0 0)],
    eventsDb := [], published := [], broadcasts := [] }

/-- A stored proposal event for identifier 7 whose author (33) is
neither the user's own public key (2) nor `vaultA`'s shared public key
(10). -/
def evWrongAuthor : NostrDbEvent :=
  { eid := 100, author := 33, kind := PROPOSAL_KIND_V2, identifier := hexString 7 }

/-- Client state where the stored proposal event for proposal 7 is
authored by a foreign key. -/
def stForeignEvent : SmartVaults :=
  { myKeys := Keys.mk 1, vaults := [(5, vaultA)], proposals := [(7, propPending)],
    approvals := [], eventsDb := [evWrongAuthor], published := [], broadcasts := [] }

/-- A store whose frozen set for vault 1 holds the outpoint (2,0). -/
def storeFrozen : Store :=
  { proposals := [], approvedProposals := [],
    frozenUtxos := [FrozenUtxoRow.mk (2, 0) 1 (some 7)],
    signers := [], events := [], notifications := [] }

/-- A wallet whose current UTXO set does not contain the frozen
outpoint (2,0). -/
def walletSmall : WalletEnv := { feeEstimate := fun _ => 1, walletUtxos := [(3, 0)] }

/-- A wallet with two spendable outpoints. -/
def walletTwo : WalletEnv :=
  { feeEstimate := fun _ => 1, walletUtxos := [(3, 0), (4, 0)] }

/-- The spending proposal built by `internal_spend` on `walletTwo` over
the empty store. -/
def spFirst : SpendingProposal := SpendingProposal.mk [(3, 0), (4, 0)]

/-- The store after saving the first pending proposal (id 7, vault 1):
both wallet outpoints are now frozen. -/
def storeAfterFirst : Store :=
  Store.empty.save_proposal 7 1 (ProposalV1.mk spFirst.psbtInputs 0)

/-- The spending proposal built by a second `internal_spend` on
`walletTwo` over `storeAfterFirst`: every wallet outpoint is excluded,
so no input is selected. -/
def spSecond : SpendingProposal := SpendingProposal.mk []

/-- The store after also saving the second pending proposal (id 8,
vault 1). -/
def storeAfterSecond : Store :=
  storeAfterFirst.save_proposal 8 1 (ProposalV1.mk spSecond.psbtInputs 0)

/-- A store exercising `delete_proposal`: proposal 7 of vault 1 with an
events row, an approval, a frozen row, plus unrelated rows for
proposal 9. -/
def storeDel : Store :=
  { proposals := [(7, (1, ProposalV1.mk [(3, 0)] 0)), (9, (1, ProposalV1.mk [(4, 0)] 0))],
    approvedProposals :=
      [(20, ApprovedProposalRow.mk 7 2 0 0), (21, ApprovedProposalRow.mk 9 2 0 0)],
    frozenUtxos := [FrozenUtxoRow.mk (3, 0) 1 (some 7), FrozenUtxoRow.mk (4, 0) 1 (some 9)],
    signers := [], events := [(7, false), (9, false)], notifications := [] }

/-- Two concrete signers agreeing on network and fingerprint but
differing in name, description, type and descriptors. -/
def signerOne : Signer :=
  { name := "a", description := "b", signerType := SignerType.seed,
    network := Network.bitcoin, fingerprint := 77, descriptors := [] }

def signerTwo : Signer :=
  { name := "c", description := "d", signerType := SignerType.airGap,
    network := Network.bitcoin, fingerprint := 77,
    descriptors := [(Purpose.bip86, DescriptorPublicKey.mk 77 none 3)] }

/-- Two concrete shared signers agreeing on owner, receiver, fingerprint
and network but differing in descriptors. -/
def sharedOne : SharedSigner :=
  { owner := 2, receiver := 3, network := Network.testnet, fingerprint := 77,
    descriptors := [] }

def sharedTwo : SharedSigner :=
  { owner := 2, receiver := 3, network := Network.testnet, fingerprint := 77,
    descriptors := [(Purpose.bip86, DescriptorPublicKey.mk 77 none 3)] }

/-- A descriptor list that passes every `CoreSigner::new` check for
fingerprint 10 on mainnet. -/
def descriptorsGood : List (Purpose × DescriptorPublicKey) :=
  [(Purpose.bip86,
    DescriptorPublicKey.mk 10 (some [ChildNumber.hardened 86, ChildNumber.hardened 0]) 1)]

/-! ## Helper lemmas on the table operations -/

theorem any_key_of_lookupRow_some {α β : Type} [DecidableEq α] {t : List (α × β)}
    {k : α} {v : β} (h : lookupRow t k = some v) :
    t.any (fun r => decide (r.fst = k)) = true := by
  induction t with
  | nil => simp [lookupRow] at h
  | cons r rest ih =>
      by_cases hr : r.fst = k
      · simp [List.any_cons, hr]
      · rw [lookupRow, if_neg hr] at h
        simp [List.any_cons, ih h]

theorem insertOrIgnore_eq_of_any {α β : Type} [DecidableEq α] {t : List (α × β)}
    {k : α} (v : β) (h : t.any (fun r => decide (r.fst = k)) = true) :
    insertOrIgnore t k v = t := by
  unfold insertOrIgnore
  rw [if_pos h]

theorem any_key_insertOrIgnore {α β : Type} [DecidableEq α] (t : List (α × β))
    (k : α) (v : β) :
    (insertOrIgnore t k v).any (fun r => decide (r.fst = k)) = true := by
  unfold insertOrIgnore
  by_cases h : t.any (fun r => decide (r.fst = k)) = true
  · rw [if_pos h]; exact h
  · rw [if_neg h]
    apply List.any_eq_true.mpr
    exact ⟨(k, v), List.mem_append_right _ (List.mem_singleton.mpr rfl), by simp⟩

theorem insertOrIgnore_idem {α β : Type} [DecidableEq α] (t : List (α × β))
    (k : α) (v w : β) :
    insertOrIgnore (insertOrIgnore t k v) k w = insertOrIgnore t k v :=
  insertOrIgnore_eq_of_any w (any_key_insertOrIgnore t k v)

theorem lookupRow_insertOrIgnore_of_some {α β : Type} [DecidableEq α]
    {t : List (α × β)} {k : α} {v : β} (w : β) (h : lookupRow t k = some v) :
    lookupRow (insertOrIgnore t k w) k = some v := by
  rw [insertOrIgnore_eq_of_any w (any_key_of_lookupRow_some h)]
  exact h

theorem mem_insertOrIgnore_elim {α β : Type} [DecidableEq α] {t : List (α × β)}
    {k : α} {v : β} {r : α × β} (h : r ∈ insertOrIgnore t k v) :
    r ∈ t ∨ r = (k, v) := by
  unfold insertOrIgnore at h
  by_cases hc : t.any (fun x => decide (x.fst = k)) = true
  · rw [if_pos hc] at h; exact Or.inl h
  · rw [if_neg hc] at h
    rcases List.mem_append.mp h with h1 | h2
    · exact Or.inl h1
    · exact Or.inr (List.mem_singleton.mp h2)

theorem mem_insertSet_of_mem {α : Type} [DecidableEq α] {t : List α} {x : α}
    (y : α) (h : x ∈ t) : x ∈ insertSet t y := by
  unfold insertSet
  split
  · exact h
  · exact List.mem_append_left _ h

theorem mem_insertSet_self {α : Type} [DecidableEq α] (t : List α) (y : α) :
    y ∈ insertSet t y := by
  unfold insertSet
  split
  · assumption
  · exact List.mem_append_right _ (List.mem_singleton.mpr rfl)

theorem insertSet_eq_of_mem {α : Type} [DecidableEq α] {t : List α} {y : α}
    (h : y ∈ t) : insertSet t y = t := by
  unfold insertSet
  rw [if_pos h]

theorem lookupRow_filter_self {β : Type} (t : List (EvId × β)) (k : EvId) :
    lookupRow (t.filter (fun r => decide (r.fst ≠ k))) k = none := by
  induction t with
  | nil => rfl
  | cons r rest ih =>
      by_cases hr : r.fst = k
      · simp only [List.filter_cons, hr]
        simpa using ih
      · simp only [List.filter_cons]
        rw [if_pos (by simpa using hr)]
        rw [lookupRow, if_neg hr]
        exact ih

theorem lookupRow_filter_ne {β : Type} (t : List (EvId × β)) {k q : EvId}
    (h : q ≠ k) :
    lookupRow (t.filter (fun r => decide (r.fst ≠ k))) q = lookupRow t q := by
  induction t with
  | nil => rfl
  | cons r rest ih =>
      by_cases hr : r.fst = k
      · have hq : ¬ (r.fst = q) := fun hq => h (by rw [← hq, hr])
        simp only [List.filter_cons, hr]
        rw [lookupRow, if_neg hq]
        simpa using ih
      · simp only [List.filter_cons]
        rw [if_pos (by simpa using hr)]
        by_cases hq : r.fst = q
        · rw [lookupRow, if_pos hq, lookupRow, if_pos hq]
        · rw [lookupRow, if_neg hq, lookupRow, if_neg hq]
          exact ih

/-! ## Helper lemmas on the store operations -/

theorem foldFreeze_proposals (inputs : List TxOutPoint) (pol : EvId)
    (pid : Option EvId) :
    ∀ st : Store,
      (inputs.foldl (fun acc txin => acc.freeze_utxo txin pol pid) st).proposals =
        st.proposals := by
  induction inputs with
  | nil => intro st; rfl
  | cons i rest ih =>
      intro st
      rw [List.foldl_cons]
      exact ih (st.freeze_utxo i pol pid)

theorem foldFreeze_approved (inputs : List TxOutPoint) (pol : EvId)
    (pid : Option EvId) :
    ∀ st : Store,
      (inputs.foldl (fun acc txin => acc.freeze_utxo txin pol pid) st).approvedProposals =
        st.approvedProposals := by
  induction inputs with
  | nil => intro st; rfl
  | cons i rest ih =>
      intro st
      rw [List.foldl_cons]
      exact ih (st.freeze_utxo i pol pid)

theorem foldFreeze_signers (inputs : List TxOutPoint) (pol : EvId)
    (pid : Option EvId) :
    ∀ st : Store,
      (inputs.foldl (fun acc txin => acc.freeze_utxo txin pol pid) st).signers =
        st.signers := by
  induction inputs with
  | nil => intro st; rfl
  | cons i rest ih =>
      intro st
      rw [List.foldl_cons]
      exact ih (st.freeze_utxo i pol pid)

theorem foldFreeze_events (inputs : List TxOutPoint) (pol : EvId)
    (pid : Option EvId) :
    ∀ st : Store,
      (inputs.foldl (fun acc txin => acc.freeze_utxo txin pol pid) st).events =
        st.events := by
  induction inputs with
  | nil => intro st; rfl
  | cons i rest ih =>
      intro st
      rw [List.foldl_cons]
      exact ih (st.freeze_utxo i pol pid)

theorem foldFreeze_notifications (inputs : List TxOutPoint) (pol : EvId)
    (pid : Option EvId) :
    ∀ st : Store,
      (inputs.foldl (fun acc txin => acc.freeze_utxo txin pol pid) st).notifications =
        st.notifications := by
  induction inputs with
  | nil => intro st; rfl
  | cons i rest ih =>
      intro st
      rw [List.foldl_cons]
      exact ih (st.freeze_utxo i pol pid)

theorem foldFreeze_frozen_mono (inputs : List TxOutPoint) (pol : EvId)
    (pid : Option EvId) {r : FrozenUtxoRow} :
    ∀ st : Store, r ∈ st.frozenUtxos →
      r ∈ (inputs.foldl (fun acc txin => acc.freeze_utxo txin pol pid) st).frozenUtxos := by
  induction inputs with
  | nil => intro st h; exact h
  | cons i rest ih =>
      intro st h
      rw [List.foldl_cons]
      exact ih (st.freeze_utxo i pol pid)
        (mem_insertSet_of_mem (FrozenUtxoRow.mk i pol pid) h)

theorem foldFreeze_mem_self (inputs : List TxOutPoint) (pol : EvId)
    (pid : Option EvId) {o : TxOutPoint} (ho : o ∈ inputs) :
    ∀ st : Store,
      FrozenUtxoRow.mk o pol pid ∈
        (inputs.foldl (fun acc txin => acc.freeze_utxo txin pol pid) st).frozenUtxos := by
  induction inputs with
  | nil => cases ho
  | cons i rest ih =>
      intro st
      rw [List.foldl_cons]
      rcases List.mem_cons.mp ho with hh | ht
      · subst hh
        exact foldFreeze_frozen_mono rest pol pid (st.freeze_utxo o pol pid)
          (mem_insertSet_self st.frozenUtxos (FrozenUtxoRow.mk o pol pid))
      · exact ih ht (st.freeze_utxo i pol pid)

theorem freeze_utxo_eq_of_mem {st : Store} {o : TxOutPoint} {pol : EvId}
    {pid : Option EvId} (h : FrozenUtxoRow.mk o pol pid ∈ st.frozenUtxos) :
    st.freeze_utxo o pol pid = st := by
  unfold Store.freeze_utxo
  rw [insertSet_eq_of_mem h]

theorem foldFreeze_eq_of_mem (inputs : List TxOutPoint) (pol : EvId)
    (pid : Option EvId) :
    ∀ st : Store, (∀ o ∈ inputs, FrozenUtxoRow.mk o pol pid ∈ st.frozenUtxos) →
      inputs.foldl (fun acc txin => acc.freeze_utxo txin pol pid) st = st := by
  induction inputs with
  | nil => intro st _; rfl
  | cons i rest ih =>
      intro st h
      rw [List.foldl_cons, freeze_utxo_eq_of_mem (h i (List.mem_cons_self i rest))]
      exact ih st (fun o ho => h o (List.mem_cons_of_mem i ho))

theorem save_proposal_proposals (s : Store) (pid pol : EvId) (p : ProposalV1) :
    (s.save_proposal pid pol p).proposals = insertOrIgnore s.proposals pid (pol, p) := by
  unfold Store.save_proposal
  rw [foldFreeze_proposals]

theorem save_proposal_frozen_mono {s : Store} (pid pol : EvId) (p : ProposalV1)
    {r : FrozenUtxoRow} (h : r ∈ s.frozenUtxos) :
    r ∈ (s.save_proposal pid pol p).frozenUtxos := by
  unfold Store.save_proposal
  exact foldFreeze_frozen_mono p.psbtInputs pol (some pid) _ h

theorem save_proposal_freezes (s : Store) (pid pol : EvId) (p : ProposalV1)
    {o : TxOutPoint} (ho : o ∈ p.psbtInputs) :
    FrozenUtxoRow.mk o pol (some pid) ∈ (s.save_proposal pid pol p).frozenUtxos := by
  unfold Store.save_proposal
  exact foldFreeze_mem_self p.psbtInputs pol (some pid) ho _

/-! ## Lemmas on the `CoreSigner::new` validation -/

theorem checkDescriptor_ok_iff (f : Fingerprint) (net : Network)
    (d : DescriptorPublicKey) :
    checkDescriptor f net d = Except.ok () ↔
      (d.master_fingerprint = f ∧
       ∃ path, d.full_derivation_path = some path ∧ networkCoinTypeOk net path = true) := by
  unfold checkDescriptor
  by_cases hf : f = d.master_fingerprint
  · rw [if_neg (by simpa using hf)]
    cases hpath : d.full_derivation_path with
    | none =>
        apply iff_of_false
        · simp
        · rintro ⟨-, path, hp, -⟩
          cases hp
    | some path =>
        dsimp only
        by_cases hnet : networkCoinTypeOk net path = true
        · rw [if_pos hnet]
          exact iff_of_true rfl ⟨hf.symm, path, rfl, hnet⟩
        · rw [if_neg hnet]
          apply iff_of_false
          · simp
          · rintro ⟨-, p, hp, hok⟩
            cases Option.some.inj hp
            exact hnet hok
  · rw [if_pos hf]
    apply iff_of_false
    · simp
    · rintro ⟨h1, -⟩
      exact hf h1.symm

theorem checkDescriptors_ok_iff (f : Fingerprint) (net : Network)
    (l : List DescriptorPublicKey) :
    checkDescriptors f net l = Except.ok () ↔
      ∀ d ∈ l, checkDescriptor f net d = Except.ok () := by
  induction l with
  | nil => simp [checkDescriptors]
  | cons d rest ih =>
      unfold checkDescriptors
      cases hc : checkDescriptor f net d with
      | ok u =>
          cases u
          simp [hc, ih]
      | error e =>
          simp [hc]

theorem checkDescriptors_error_mem {f : Fingerprint} {net : Network}
    {l : List DescriptorPublicKey} {e : CoreSignerError}
    (h : checkDescriptors f net l = Except.error e) :
    ∃ d ∈ l, checkDescriptor f net d = Except.error e := by
  induction l with
  | nil => cases h
  | cons d rest ih =>
      unfold checkDescriptors at h
      cases hc : checkDescriptor f net d with
      | ok u =>
          cases u
          rw [hc] at h
          obtain ⟨d2, hm, he⟩ := ih h
          exact ⟨d2, List.mem_cons_of_mem d hm, he⟩
      | error e2 =>
          rw [hc] at h
          cases Except.error.inj h
          exact ⟨d, List.mem_cons_self d rest, hc⟩

theorem checkDescriptor_error_fp {f : Fingerprint} {net : Network}
    {d : DescriptorPublicKey}
    (h : checkDescriptor f net d = Except.error CoreSignerError.fingerprintNotMatch) :
    d.master_fingerprint ≠ f := by
  unfold checkDescriptor at h
  by_cases hf : f = d.master_fingerprint
  · rw [if_neg (by simpa using hf)] at h
    cases hpath : d.full_derivation_path with
    | none => rw [hpath] at h; cases Except.error.inj h
    | some path =>
        rw [hpath] at h
        dsimp only at h
        by_cases hnet : networkCoinTypeOk net path = true
        · rw [if_pos hnet] at h; cases h
        · rw [if_neg hnet] at h; cases Except.error.inj h
  · exact fun he => hf he.symm

theorem checkDescriptor_error_path {f : Fingerprint} {net : Network}
    {d : DescriptorPublicKey}
    (h : checkDescriptor f net d = Except.error CoreSignerError.derivationPathNotFound) :
    d.full_derivation_path = none := by
  unfold checkDescriptor at h
  by_cases hf : f = d.master_fingerprint
  · rw [if_neg (by simpa using hf)] at h
    cases hpath : d.full_derivation_path with
    | none => rfl
    | some path =>
        rw [hpath] at h
        dsimp only at h
        by_cases hnet : networkCoinTypeOk net path = true
        · rw [if_pos hnet] at h; cases h
        · rw [if_neg hnet] at h; cases Except.error.inj h
  · rw [if_pos hf] at h
    cases Except.error.inj h

theorem checkDescriptor_error_net {f : Fingerprint} {net : Network}
    {d : DescriptorPublicKey}
    (h : checkDescriptor f net d = Except.error CoreSignerError.networkNotMatch) :
    ∃ path, d.full_derivation_path = some path ∧ networkCoinTypeOk net path = false := by
  unfold checkDescriptor at h
  by_cases hf : f = d.master_fingerprint
  · rw [if_neg (by simpa using hf)] at h
    cases hpath : d.full_derivation_path with
    | none => rw [hpath] at h; cases Except.error.inj h
    | some path =>
        rw [hpath] at h
        dsimp only at h
        by_cases hnet : networkCoinTypeOk net path = true
        · rw [if_pos hnet] at h; cases h
        · rw [if_neg hnet] at h
          exact ⟨path, rfl, by simpa using hnet⟩
  · rw [if_pos hf] at h
    cases Except.error.inj h

theorem coreSigner_new_ok_elim {f : Fingerprint}
    {ds : List (Purpose × DescriptorPublicKey)} {net : Network} {s : CoreSigner}
    (h : CoreSigner.new f ds net = Except.ok s) :
    s.fingerprint = f ∧ s.descriptors = ds ∧
      checkDescriptors f net (ds.map Prod.snd) = Except.ok () := by
  unfold CoreSigner.new at h
  cases hc : checkDescriptors f net (ds.map Prod.snd) with
  | ok u =>
      cases u
      rw [hc] at h
      cases Except.ok.inj h
      exact ⟨rfl, rfl, rfl⟩
  | error e =>
      rw [hc] at h
      cases h

theorem coreSigner_new_error_elim {f : Fingerprint}
    {ds : List (Purpose × DescriptorPublicKey)} {net : Network} {e : CoreSignerError}
    (h : CoreSigner.new f ds net = Except.error e) :
    checkDescriptors f net (ds.map Prod.snd) = Except.error e := by
  unfold CoreSigner.new at h
  cases hc : checkDescriptors f net (ds.map Prod.snd) with
  | ok u =>
      cases u
      rw [hc] at h
      cases h
  | error e2 =>
      rw [hc] at h
      cases Except.error.inj h
      rfl

/-- Claim C10: `CoreSigner::new(fingerprint, descriptors, network)`
succeeds if and only if every supplied descriptor has a resolvable full
derivation path, its master fingerprint equals the supplied fingerprint,
and its coin-type path component matches the network (hardened index 0
for mainnet, hardened index 1 otherwise); on failure it returns
`FingerprintNotMatch`, `NetworkNotMatch` or `DerivationPathNotFound`
respectively, and every constructed `CoreSigner` (including those built
by `from_seed`) keeps exactly the validated fingerprint and
descriptors. -/
theorem C10_core_signer_validation :
    (∀ (f : Fingerprint) (ds : List (Purpose × DescriptorPublicKey)) (net : Network),
      (CoreSigner.new f ds net).isOk = true ↔
        ∀ d ∈ ds.map Prod.snd, d.master_fingerprint = f ∧
          ∃ path, d.full_derivation_path = some path ∧
            networkCoinTypeOk net path = true) ∧
    (∀ (f : Fingerprint) (ds : List (Purpose × DescriptorPublicKey)) (net : Network)
       (s : CoreSigner), CoreSigner.new f ds net = Except.ok s →
      s.fingerprint = f ∧ s.descriptors = ds ∧
        ∀ d ∈ s.descriptors.map Prod.snd, d.master_fingerprint = s.fingerprint ∧
          ∃ path, d.full_derivation_path = some path ∧
            networkCoinTypeOk net path = true) ∧
    (∀ (f : Fingerprint) (ds : List (Purpose × DescriptorPublicKey)) (net : Network),
      CoreSigner.new f ds net = Except.error CoreSignerError.fingerprintNotMatch →
        ∃ d ∈ ds.map Prod.snd, d.master_fingerprint ≠ f) ∧
    (∀ (f : Fingerprint) (ds : List (Purpose × DescriptorPublicKey)) (net : Network),
      CoreSigner.new f ds net = Except.error CoreSignerError.derivationPathNotFound →
        ∃ d ∈ ds.map Prod.snd, d.full_derivation_path = none) ∧
    (∀ (f : Fingerprint) (ds : List (Purpose × DescriptorPublicKey)) (net : Network),
      CoreSigner.new f ds net = Except.error CoreSignerError.networkNotMatch →
        ∃ d ∈ ds.map Prod.snd, ∃ path, d.full_derivation_path = some path ∧
          networkCoinTypeOk net path = false) ∧
    (∀ (seed : Seed) (account : Option Nat) (net : Network) (s : CoreSigner),
      CoreSigner.from_seed seed account net = Except.ok s →
      ∀ d ∈ s.descriptors.map Prod.snd, d.master_fingerprint = s.fingerprint ∧
        ∃ path, d.full_derivation_path = some path ∧
          networkCoinTypeOk net path = true) := by
  have hok : ∀ (f : Fingerprint) (ds : List (Purpose × DescriptorPublicKey))
      (net : Network) (s : CoreSigner), CoreSigner.new f ds net = Except.ok s →
      s.fingerprint = f ∧ s.descriptors = ds ∧
        ∀ d ∈ s.descriptors.map Prod.snd, d.master_fingerprint = s.fingerprint ∧
          ∃ path, d.full_derivation_path = some path ∧
            networkCoinTypeOk net path = true := by
    intro f ds net s h
    obtain ⟨h1, h2, h3⟩ := coreSigner_new_ok_elim h
    refine ⟨h1, h2, ?_⟩
    rw [h1, h2]
    intro d hd
    exact (checkDescriptor_ok_iff f net d).mp
      ((checkDescriptors_ok_iff f net _).mp h3 d hd)
  refine ⟨?_, hok, ?_, ?_, ?_, ?_⟩
  · intro f ds net
    unfold CoreSigner.new
    cases hc : checkDescriptors f net (ds.map Prod.snd) with
    | ok u =>
        cases u
        apply iff_of_true rfl
        intro d hd
        exact (checkDescriptor_ok_iff f net d).mp
          ((checkDescriptors_ok_iff f net _).mp hc d hd)
    | error e =>
        apply iff_of_false
        · simp [Except.isOk, Except.toBool]
        · intro hall
          have hok2 : checkDescriptors f net (ds.map Prod.snd) = Except.ok () :=
            (checkDescriptors_ok_iff f net _).mpr
              (fun d hd => (checkDescriptor_ok_iff f net d).mpr (hall d hd))
          exact absurd (hok2.symm.trans hc) (by simp)
  · intro f ds net h
    obtain ⟨d, hd, he⟩ := checkDescriptors_error_mem (coreSigner_new_error_elim h)
    exact ⟨d, hd, checkDescriptor_error_fp he⟩
  · intro f ds net h
    obtain ⟨d, hd, he⟩ := checkDescriptors_error_mem (coreSigner_new_error_elim h)
    exact ⟨d, hd, checkDescriptor_error_path he⟩
  · intro f ds net h
    obtain ⟨d, hd, he⟩ := checkDescriptors_error_mem (coreSigner_new_error_elim h)
    exact ⟨d, hd, checkDescriptor_error_net he⟩
  · intro seed account net s h
    exact (hok _ _ net s h).2.2

/-- Claim C10 witness: on a concrete valid mainnet descriptor list the
constructor succeeds with exactly the supplied data, and on a broken
fingerprint it reports `FingerprintNotMatch` for a concrete offending
descriptor. -/
theorem C10_witness :
    ((CoreSigner.new 10 descriptorsGood Network.bitcoin).isOk = true) ∧
    ((CoreSigner.mk 10 descriptorsGood).fingerprint = 10 ∧
      (CoreSigner.mk 10 descriptorsGood).descriptors = descriptorsGood ∧
      ∀ d ∈ (CoreSigner.mk 10 descriptorsGood).descriptors.map Prod.snd,
        d.master_fingerprint = (CoreSigner.mk 10 descriptorsGood).fingerprint ∧
        ∃ path, d.full_derivation_path = some path ∧
          networkCoinTypeOk Network.bitcoin path = true) ∧
    (∃ d ∈ descriptorsGood.map Prod.snd, d.master_fingerprint ≠ 11) := by
  refine ⟨?_, ?_, ?_⟩
  · apply (C10_core_signer_validation.1 10 descriptorsGood Network.bitcoin).mpr
    intro d hd
    simp only [descriptorsGood, List.map_cons, List.map_nil, List.mem_singleton] at hd
    subst hd
    exact ⟨rfl, [ChildNumber.hardened 86, ChildNumber.hardened 0], rfl, rfl⟩
  · exact C10_core_signer_validation.2.1 10 descriptorsGood Network.bitcoin
      (CoreSigner.mk 10 descriptorsGood) rfl
  · exact C10_core_signer_validation.2.2.1 11 descriptorsGood Network.bitcoin rfl

/-- Claim C6: `Signer::generate_identifier` depends only on the signer's
network and master fingerprint (signers agreeing on these get the same
identifier regardless of name, description or type), and
`SharedSigner::nostr_public_identifier` depends only on (owner,
receiver, fingerprint, network), so identical inputs always yield
identical identifiers. -/
theorem C6_identifiers_deterministic :
    (∀ s1 s2 : Signer, s1.network = s2.network → s1.fingerprint = s2.fingerprint →
      s1.generate_identifier = s2.generate_identifier) ∧
    (∀ t1 t2 : SharedSigner, t1.owner = t2.owner → t1.receiver = t2.receiver →
      t1.fingerprint = t2.fingerprint → t1.network = t2.network →
      t1.nostr_public_identifier = t2.nostr_public_identifier) := by
  constructor
  · intro s1 s2 hn hf
    unfold Signer.generate_identifier
    rw [hn, hf]
  · intro t1 t2 ho hr hf hn
    unfold SharedSigner.nostr_public_identifier
    rw [ho, hr, hf, hn]

/-- Claim C6 witness: concrete signers differing in name, description,
type and descriptors but agreeing on the identifying fields produce
equal identifiers. -/
theorem C6_witness :
    signerOne.generate_identifier = signerTwo.generate_identifier ∧
    sharedOne.nostr_public_identifier = sharedTwo.nostr_public_identifier :=
  ⟨C6_identifiers_deterministic.1 signerOne signerTwo rfl rfl,
   C6_identifiers_deterministic.2 sharedOne sharedTwo rfl rfl rfl rfl⟩

/-- Claim C9: every SharedSigner invite event and every Vault invite
event is authored by the freshly generated single-use keypair (not any
other key), its content is encrypted to the specific receiver's public
key, and it carries a receiver public-key tag plus an expiration tag
strictly in the future of the event's creation time. -/
theorem C9_invite_events_ephemeral_addressed_expiring :
    ∀ (ss : SharedSigner) (invite : VaultInvite) (receiver : PubKey)
      (freshKeys : Keys) (now : Tstamp),
      ((build_invitation_event ss freshKeys now).author = freshKeys.publicKey ∧
       (build_invitation_event ss freshKeys now).content.receiver = ss.receiver ∧
       (build_invitation_event ss freshKeys now).content.senderSecret =
         freshKeys.secretKey ∧
       (build_invitation_event ss freshKeys now).kind = WRAPPER_KIND ∧
       (build_invitation_event ss freshKeys now).createdAt = now ∧
       (build_invitation_event ss freshKeys now).tags =
         [Tag.publicKey ss.receiver, Tag.expiration (now + WRAPPER_EXIPRATION)] ∧
       now < now + WRAPPER_EXIPRATION) ∧
      ((invite.build_event receiver freshKeys now).author = freshKeys.publicKey ∧
       (invite.build_event receiver freshKeys now).content.receiver = receiver ∧
       (invite.build_event receiver freshKeys now).content.senderSecret =
         freshKeys.secretKey ∧
       (invite.build_event receiver freshKeys now).kind = WRAPPER_KIND ∧
       (invite.build_event receiver freshKeys now).createdAt = now ∧
       (invite.build_event receiver freshKeys now).tags =
         [Tag.publicKey receiver, Tag.expiration (now + WRAPPER_EXIPRATION)] ∧
       now < now + WRAPPER_EXIPRATION) := by
  intro ss invite receiver freshKeys now
  have hpos : now < now + WRAPPER_EXIPRATION :=
    Nat.lt_add_of_pos_right (by decide)
  exact ⟨⟨rfl, rfl, rfl, rfl, rfl, rfl, hpos⟩, ⟨rfl, rfl, rfl, rfl, rfl, rfl, hpos⟩⟩

/-- Claim C7: `internal_spend` rejects an invalid fee rate with
`InvalidFeeRate` before any wallet-backend interaction: no fee
estimation, no frozen-set read, no UTXO read, no transaction build. -/
theorem C7_invalid_fee_rate_short_circuits :
    ∀ (env : WalletEnv) (store : Store) (vault_id : EvId) (fee_rate : FeeRate)
      (utxos : Option (List TxOutPoint)) (skip_frozen_utxos : Bool),
      fee_rate.is_valid = false →
      SmartVaults.internal_spend env store vault_id fee_rate utxos skip_frozen_utxos =
        ([], Except.error ClientError.invalidFeeRate) := by
  intro env store vault_id fee_rate utxos skip h
  unfold SmartVaults.internal_spend
  rw [if_pos h]

/-- Claim C7 witness: a zero sat/vbyte fee rate is rejected with no
backend calls issued. -/
theorem C7_witness :
    SmartVaults.internal_spend walletSmall storeFrozen 1 (FeeRate.rate 0) none false =
      ([], Except.error ClientError.invalidFeeRate) :=
  C7_invalid_fee_rate_short_circuits walletSmall storeFrozen 1 (FeeRate.rate 0) none
    false (by decide)

/-- Claim C5: saving an entity under an identifier already present in
the index is a no-op on the stored row (INSERT OR IGNORE): repeating the
same save of a proposal, an approval or a signer yields exactly the
state of applying it once, and a save under an existing identifier never
overwrites the previously stored content. -/
theorem C5_insert_or_ignore_saves :
    ∀ (s : Store) (pid pol : EvId) (p : ProposalV1) (aid : EvId) (author : PubKey)
      (blob : Nat) (ts : Tstamp) (sid : EvId) (sblob : Nat),
      ((s.save_proposal pid pol p).save_proposal pid pol p = s.save_proposal pid pol p) ∧
      ((s.save_approved_proposal pid author aid blob ts).save_approved_proposal
          pid author aid blob ts = s.save_approved_proposal pid author aid blob ts) ∧
      ((s.save_signer sid sblob).save_signer sid sblob = s.save_signer sid sblob) ∧
      (∀ v q, lookupRow s.proposals pid = some v →
        lookupRow ((s.save_proposal pid pol q).proposals) pid = some v) ∧
      (∀ v r, lookupRow s.approvedProposals aid = some v →
        lookupRow ((s.save_approved_proposal pid author aid r ts).approvedProposals)
          aid = some v) ∧
      (∀ v b, lookupRow s.signers sid = some v →
        lookupRow ((s.save_signer sid b).signers) sid = some v) := by
  intro s pid pol p aid author blob ts sid sblob
  refine ⟨?_, ?_, ?_, ?_, ?_, ?_⟩
  · have hprops : (s.save_proposal pid pol p).proposals =
        insertOrIgnore s.proposals pid (pol, p) := save_proposal_proposals s pid pol p
    have hA1 : ({ s.save_proposal pid pol p with
        proposals := insertOrIgnore (s.save_proposal pid pol p).proposals
          pid (pol, p) } : Store) = s.save_proposal pid pol p := by
      rw [hprops, insertOrIgnore_idem, ← hprops]
    have step : (s.save_proposal pid pol p).save_proposal pid pol p =
        p.psbtInputs.foldl (fun acc txin => acc.freeze_utxo txin pol (some pid))
          { s.save_proposal pid pol p with
            proposals := insertOrIgnore (s.save_proposal pid pol p).proposals
              pid (pol, p) } := rfl
    rw [step, hA1]
    exact foldFreeze_eq_of_mem p.psbtInputs pol (some pid) (s.save_proposal pid pol p)
      (fun o ho => save_proposal_freezes s pid pol p ho)
  · simp only [Store.save_approved_proposal, insertOrIgnore_idem]
  · simp only [Store.save_signer, insertOrIgnore_idem]
  · intro v q hv
    rw [save_proposal_proposals]
    exact lookupRow_insertOrIgnore_of_some (pol, q) hv
  · intro v r hv
    exact lookupRow_insertOrIgnore_of_some _ hv
  · intro v b hv
    exact lookupRow_insertOrIgnore_of_some _ hv

/-- Claim C5 witness: re-saving the same signer row is a no-op, and
saving a different blob under the same signer id does not overwrite the
stored one. -/
theorem C5_witness :
    ((Store.empty.save_signer 3 77).save_signer 3 77 = Store.empty.save_signer 3 77) ∧
    lookupRow ((Store.empty.save_signer 3 77).save_signer 3 88).signers 3 = some 77 :=
  ⟨(C5_insert_or_ignore_saves Store.empty 0 0 (ProposalV1.mk [] 0) 0 0 0 0
      3 77).2.2.1,
   (C5_insert_or_ignore_saves (Store.empty.save_signer 3 77) 0 0 (ProposalV1.mk [] 0)
      0 0 0 0 3 77).2.2.2.2.2 77 88 (by decide)⟩

/-! ## Lemmas on `Store::delete_proposal` -/

theorem delete_proposal_proposals (s : Store) (pid : EvId) :
    (s.delete_proposal pid).proposals =
      s.proposals.filter (fun r => decide (r.fst ≠ pid)) := rfl

theorem delete_proposal_approved (s : Store) (pid : EvId) :
    (s.delete_proposal pid).approvedProposals =
      s.approvedProposals.filter (fun r => decide (r.snd.proposal_id ≠ pid)) := rfl

theorem delete_proposal_frozen (s : Store) (pid : EvId) :
    (s.delete_proposal pid).frozenUtxos =
      s.frozenUtxos.filter (fun r => decide (r.proposal_id ≠ some pid)) := rfl

theorem delete_proposal_events (s : Store) (pid : EvId) :
    (s.delete_proposal pid).events =
      s.events.map (fun r => if r.fst = pid then (r.fst, true) else r) := rfl

/-- Claim C8: `Store::delete_proposal(proposal_id)` tombstones the
proposal's event id and removes the proposal row, every approval row
bound to that proposal and every frozen-UTXO row claimed by it, while
rows belonging to other proposals (and other event rows) are kept. -/
theorem C8_delete_proposal_cascade :
    ∀ (s : Store) (pid : EvId),
      (∀ b : Bool, (pid, b) ∈ s.events →
        (s.delete_proposal pid).event_was_deleted pid = true) ∧
      (lookupRow (s.delete_proposal pid).proposals pid = none) ∧
      (∀ r ∈ (s.delete_proposal pid).approvedProposals, r.snd.proposal_id ≠ pid) ∧
      (∀ r ∈ (s.delete_proposal pid).frozenUtxos, r.proposal_id ≠ some pid) ∧
      (∀ q, q ≠ pid →
        lookupRow (s.delete_proposal pid).proposals q = lookupRow s.proposals q) ∧
      (∀ a ∈ s.approvedProposals, a.snd.proposal_id ≠ pid →
        a ∈ (s.delete_proposal pid).approvedProposals) ∧
      (∀ r ∈ s.frozenUtxos, r.proposal_id ≠ some pid →
        r ∈ (s.delete_proposal pid).frozenUtxos) ∧
      (∀ e ∈ s.events, e.fst ≠ pid → e ∈ (s.delete_proposal pid).events) := by
  intro s pid
  refine ⟨?_, ?_, ?_, ?_, ?_, ?_, ?_, ?_⟩
  · intro b hb
    have hm : (pid, true) ∈ (s.delete_proposal pid).events := by
      rw [delete_proposal_events]
      have hmem := List.mem_map_of_mem
        (fun r : EvId × Bool => if r.fst = pid then (r.fst, true) else r) hb
      simpa using hmem
    unfold Store.event_was_deleted
    exact List.any_eq_true.mpr ⟨(pid, true), hm, by simp⟩
  · rw [delete_proposal_proposals]
    exact lookupRow_filter_self s.proposals pid
  · intro r hr
    rw [delete_proposal_approved] at hr
    simpa using (List.mem_filter.mp hr).2
  · intro r hr
    rw [delete_proposal_frozen] at hr
    simpa using (List.mem_filter.mp hr).2
  · intro q hq
    rw [delete_proposal_proposals]
    exact lookupRow_filter_ne s.proposals hq
  · intro a ha hne
    rw [delete_proposal_approved]
    exact List.mem_filter.mpr ⟨ha, by simpa using hne⟩
  · intro r hr hne
    rw [delete_proposal_frozen]
    exact List.mem_filter.mpr ⟨hr, by simpa using hne⟩
  · intro e he hne
    rw [delete_proposal_events]
    have : (if e.fst = pid then (e.fst, true) else e) = e := if_neg hne
    rw [← this]
    exact List.mem_map_of_mem _ he

/-- Claim C8 witness: deleting proposal 7 from `storeDel` tombstones its
event, removes its rows, and keeps the rows of proposal 9. -/
theorem C8_witness :
    ((storeDel.delete_proposal 7).event_was_deleted 7 = true) ∧
    (lookupRow (storeDel.delete_proposal 7).proposals 7 = none) ∧
    (lookupRow (storeDel.delete_proposal 7).proposals 9 = lookupRow storeDel.proposals 9) ∧
    ((21, ApprovedProposalRow.mk 9 2 0 0) ∈ (storeDel.delete_proposal 7).approvedProposals) ∧
    (FrozenUtxoRow.mk (4, 0) 1 (some 9) ∈ (storeDel.delete_proposal 7).frozenUtxos) :=
  ⟨(C8_delete_proposal_cascade storeDel 7).1 false (by decide),
   (C8_delete_proposal_cascade storeDel 7).2.1,
   (C8_delete_proposal_cascade storeDel 7).2.2.2.2.1 9 (by decide),
   (C8_delete_proposal_cascade storeDel 7).2.2.2.2.2.1 (21, ApprovedProposalRow.mk 9 2 0 0)
     (by decide) (by decide),
   (C8_delete_proposal_cascade storeDel 7).2.2.2.2.2.2.1 (FrozenUtxoRow.mk (4, 0) 1 (some 9))
     (by decide) (by decide)⟩

/-! ## Lemmas on `SmartVaults::finalize` -/

theorem finalize_reduce {env : RelayChainEnv} {s : SmartVaults} {pid : EvId}
    {p : ProposalV2} {v : Vault} (h1 : lookupRow s.proposals pid = some p)
    (h2 : lookupRow s.vaults p.vault_id = some v) :
    SmartVaults.finalize env s pid =
      (match p.finalizeWith (s.approvalsOf pid) with
       | Except.error e => (Except.error e, s)
       | Except.ok p2 =>
           if p2.is_broadcastable then
             if env.broadcastOk then
               finalizePublish env { s with broadcasts := s.broadcasts ++ [p2.txPayload] }
                 v pid p2
             else (Except.error ClientError.broadcastFailed, s)
           else finalizePublish env s v pid p2) := by
  unfold SmartVaults.finalize
  rw [h1]
  dsimp only
  rw [h2]

/-- Claim C1 (amended): calling `SmartVaults::finalize` on a proposal
whose indexed state is already Completed is detected by the state check
inside the approval-combination step and rejected with
`ProposalAlreadyFinalized`; no transaction is broadcast, nothing is
published, and the indexed state is unchanged — but the call returns
that error, not a no-op success. -/
theorem C1_finalize_completed_rejected :
    ∀ (env : RelayChainEnv) (s : SmartVaults) (pid : EvId) (p : ProposalV2) (v : Vault),
      lookupRow s.proposals pid = some p →
      lookupRow s.vaults p.vault_id = some v →
      p.status = ProposalStatus.completed →
      SmartVaults.finalize env s pid =
        (Except.error ClientError.proposalAlreadyFinalized, s) := by
  intro env s pid p v h1 h2 h3
  rw [finalize_reduce h1 h2]
  have hcomb : p.finalizeWith (s.approvalsOf pid) =
      Except.error ClientError.proposalAlreadyFinalized := by
    unfold ProposalV2.finalizeWith
    rw [if_pos h3]
  rw [hcomb]

/-- Claim C1 counterexample: at a concrete state holding an
already-Completed proposal, `finalize` returns the
`ProposalAlreadyFinalized` error — not the no-op success the claim
states — while leaving the state (broadcasts included) unchanged. -/
theorem C1_counterexample :
    (SmartVaults.finalize envOk stCompleted 7).fst =
      Except.error ClientError.proposalAlreadyFinalized ∧
    (SmartVaults.finalize envOk stCompleted 7).fst ≠ Except.ok () ∧
    (SmartVaults.finalize envOk stCompleted 7).snd = stCompleted := by
  refine ⟨rfl, ?_, rfl⟩
  intro h
  cases h

/-- Claim C1 witness: the amended statement applied at the concrete
completed-proposal state. -/
theorem C1_witness :
    SmartVaults.finalize envOk stCompleted 7 =
      (Except.error ClientError.proposalAlreadyFinalized, stCompleted) :=
  C1_finalize_completed_rejected envOk stCompleted 7 propCompleted vaultA
    (by decide) (by decide) (by decide)

/-- Claim C2: in `finalize` the side effects occur in the order policy
check, then broadcast, then publish/index update: a failing combine
returns its error with the state untouched; a failing broadcast of a
broadcastable result returns the error with the state untouched (the
proposal is not saved as Completed); and on success the transaction is
broadcast, the Completed proposal event is published, and the index is
updated to the completed proposal. -/
theorem C2_finalize_effect_order :
    ∀ (env : RelayChainEnv) (s : SmartVaults) (pid : EvId) (p : ProposalV2) (v : Vault),
      lookupRow s.proposals pid = some p →
      lookupRow s.vaults p.vault_id = some v →
      ((∀ e, p.finalizeWith (s.approvalsOf pid) = Except.error e →
          SmartVaults.finalize env s pid = (Except.error e, s)) ∧
       (∀ p2, p.finalizeWith (s.approvalsOf pid) = Except.ok p2 →
          p2.is_broadcastable = true → env.broadcastOk = false →
          SmartVaults.finalize env s pid =
            (Except.error ClientError.broadcastFailed, s)) ∧
       (∀ p2, p.finalizeWith (s.approvalsOf pid) = Except.ok p2 →
          p2.is_broadcastable = true → env.broadcastOk = true → env.publishOk = true →
          (SmartVaults.finalize env s pid).fst = Except.ok () ∧
          (SmartVaults.finalize env s pid).snd.broadcasts =
            s.broadcasts ++ [p2.txPayload] ∧
          (SmartVaults.finalize env s pid).snd.published =
            s.published ++
              [OutEvent.proposalEvent (pubkeyOf v.sharedSecretKey) pid p2] ∧
          (SmartVaults.finalize env s pid).snd.proposals =
            insertOrReplace s.proposals pid p2)) := by
  intro env s pid p v h1 h2
  refine ⟨?_, ?_, ?_⟩
  · intro e he
    rw [finalize_reduce h1 h2, he]
  · intro p2 hok hb hbo
    rw [finalize_reduce h1 h2, hok]
    dsimp only
    simp [hb, hbo]
  · intro p2 hok hb hbo hpub
    rw [finalize_reduce h1 h2, hok]
    dsimp only
    simp [hb, hbo, hpub, finalizePublish]

/-- Claim C2 witness: with a pending proposal and no indexed approvals
the combine step fails with `NotEnoughApprovals` and the state is
untouched; with two approvals and a working backend the proposal is
broadcast, published and re-indexed as completed. -/
theorem C2_witness :
    (SmartVaults.finalize envOk stPending 7 =
      (Except.error ClientError.notEnoughApprovals, stPending)) ∧
    ((SmartVaults.finalize envOk stTwoApprovals 7).fst = Except.ok () ∧
     (SmartVaults.finalize envOk stTwoApprovals 7).snd.broadcasts =
       stTwoApprovals.broadcasts ++ [propPendingDone.txPayload] ∧
     (SmartVaults.finalize envOk stTwoApprovals 7).snd.published =
       stTwoApprovals.published ++
         [OutEvent.proposalEvent (pubkeyOf vaultA.sharedSecretKey) 7 propPendingDone] ∧
     (SmartVaults.finalize envOk stTwoApprovals 7).snd.proposals =
       insertOrReplace stTwoApprovals.proposals 7 propPendingDone) :=
  ⟨(C2_finalize_effect_order envOk stPending 7 propPending vaultA (by decide)
      (by decide)).1 ClientError.notEnoughApprovals rfl,
   (C2_finalize_effect_order envOk stTwoApprovals 7 propPending vaultA (by decide)
      (by decide)).2.2 propPendingDone rfl rfl rfl rfl⟩

/-- Claim C4 (amended): an unauthorized delete mutates nothing and
publishes nothing, but the error differs between the two operations:
`delete_vault_by_id` with an event author different from the user's own
key fails with `TryingToDeleteNotOwnedEvent`, while
`delete_proposal_by_id` looks the proposal event up with an author
filter fixed to the vault's shared key, so when the stored proposal
event's author is not the shared key the event is simply not found and
the call fails with `NotFound` (the explicit
`TryingToDeleteNotOwnedEvent` branch there is unreachable). -/
theorem C4_delete_authorization :
    (∀ (s : SmartVaults) (eid : EvId) (ev : NostrDbEvent),
      s.eventsDb.find? (fun e => decide (e.eid = eid)) = some ev →
      ev.author ≠ s.myKeys.publicKey →
      s.delete_vault_by_id eid =
        (Except.error ClientError.tryingToDeleteNotOwnedEvent, s)) ∧
    (∀ (s : SmartVaults) (pid : EvId) (p : ProposalV2) (v : Vault),
      lookupRow s.proposals pid = some p →
      lookupRow s.vaults p.vault_id = some v →
      (∀ e ∈ s.eventsDb, e.kind = PROPOSAL_KIND_V2 → e.identifier = hexString pid →
        e.author ≠ pubkeyOf v.sharedSecretKey) →
      s.delete_proposal_by_id pid = (Except.error ClientError.notFound, s)) := by
  constructor
  · intro s eid ev hfind hauthor
    unfold SmartVaults.delete_vault_by_id
    rw [hfind]
    dsimp only
    rw [if_neg hauthor]
  · intro s pid p v h1 h2 hauthor
    unfold SmartVaults.delete_proposal_by_id
    rw [h1]
    dsimp only
    rw [h2]
    dsimp only
    have hnil : s.eventsDb.filter (fun e =>
        decide (e.kind = PROPOSAL_KIND_V2) &&
        decide (e.author = pubkeyOf v.sharedSecretKey) &&
        decide (e.identifier = hexString pid)) = [] := by
      rw [List.filter_eq_nil_iff]
      intro e he
      intro hp
      simp only [Bool.and_eq_true, decide_eq_true_iff] at hp
      exact hauthor e he hp.1.1 hp.2 hp.1.2
    rw [hnil]
    rfl

/-- Claim C4 counterexample: with the stored proposal event authored by
a foreign key, `delete_proposal_by_id` fails with `NotFound` rather
than the `TryingToDeleteNotOwnedEvent` the claim states (no deletion is
published and the index is untouched either way). -/
theorem C4_counterexample :
    stForeignEvent.delete_proposal_by_id 7 =
      (Except.error ClientError.notFound, stForeignEvent) ∧
    (stForeignEvent.delete_proposal_by_id 7).fst ≠
      Except.error ClientError.tryingToDeleteNotOwnedEvent := by
  refine ⟨rfl, fun h => ?_⟩
  cases Except.error.inj h

/-- Claim C4 witness: the amended statement applied at the concrete
state with a foreign-authored event: the vault deletion is rejected
with `TryingToDeleteNotOwnedEvent` and the proposal deletion with
`NotFound`, both leaving the state unchanged. -/
theorem C4_witness :
    (stForeignEvent.delete_vault_by_id 100 =
      (Except.error ClientError.tryingToDeleteNotOwnedEvent, stForeignEvent)) ∧
    (stForeignEvent.delete_proposal_by_id 7 =
      (Except.error ClientError.notFound, stForeignEvent)) :=
  ⟨C4_delete_authorization.1 stForeignEvent 100 evWrongAuthor (by decide) (by decide),
   C4_delete_authorization.2 stForeignEvent 7 propPending vaultA (by decide)
     (by decide) (by decide)⟩

/-! ## Lemmas on the spending path and the frozen-set invariant -/

theorem internal_spend_ok_inputs {env : WalletEnv} {store : Store} {vault_id : EvId}
    {fr : FeeRate} {utxos : Option (List TxOutPoint)} {sp : SpendingProposal}
    (h : (SmartVaults.internal_spend env store vault_id fr utxos false).snd =
      Except.ok sp) :
    sp.psbtInputs = buildSpendingTx env.walletUtxos utxos
      ((spendExclusions env store vault_id false).getD []) := by
  unfold SmartVaults.internal_spend at h
  by_cases hv : fr.is_valid = false
  · rw [if_pos hv] at h
    cases h
  · rw [if_neg hv] at h
    dsimp only at h
    cases Except.ok.inj h
    rfl

theorem mem_buildSpendingTx {wallet excl : List TxOutPoint}
    {manual : Option (List TxOutPoint)} {o : TxOutPoint}
    (h : o ∈ buildSpendingTx wallet manual excl) : o ∈ wallet ∧ o ∉ excl := by
  unfold buildSpendingTx at h
  have hp := (List.mem_filter.mp h).2
  simp only [Bool.and_eq_true, decide_eq_true_iff, Bool.not_eq_true',
    decide_eq_false_iff_not] at hp
  exact hp

theorem mem_get_frozen_utxos_of_row {s : Store} {r : FrozenUtxoRow}
    (h : r ∈ s.frozenUtxos) {v : EvId} (hp : r.policy_id = v) :
    r.utxo ∈ s.get_frozen_utxos v := by
  unfold Store.get_frozen_utxos
  exact List.mem_map_of_mem FrozenUtxoRow.utxo
    (List.mem_filter.mpr ⟨h, by simp [hp]⟩)

theorem not_frozen_of_selected {wallet fset : List TxOutPoint} {o : TxOutPoint}
    (hw : o ∈ wallet)
    (hno : o ∉ wallet.filter (fun u => decide (u ∈ fset))) : o ∉ fset :=
  fun hf => hno (List.mem_filter.mpr ⟨hw, by simpa using hf⟩)

theorem spendStep_preserves_inv {s1 s2 : Store} (hInv : SpendInv s1)
    (h : SpendStep s1 s2) : SpendInv s2 := by
  obtain ⟨hA, hB⟩ := hInv
  cases h with
  | create env store vault_id pid fr utxos sp payload hspend =>
      have hinputs : sp.psbtInputs = buildSpendingTx env.walletUtxos utxos
          ((spendExclusions env s1 vault_id false).getD []) :=
        internal_spend_ok_inputs hspend
      constructor
      · intro r hr o ho
        rw [save_proposal_proposals] at hr
        rcases mem_insertOrIgnore_elim hr with hold | hnew
        · exact save_proposal_frozen_mono pid vault_id _ (hA r hold o ho)
        · subst hnew
          exact save_proposal_freezes s1 pid vault_id _ ho
      · intro r1 h1 r2 h2 hne hsamev o ho1
        rw [save_proposal_proposals] at h1 h2
        have hfrozen_new : ∀ o2 ∈ sp.psbtInputs,
            o2 ∉ s1.get_frozen_utxos vault_id := by
          intro o2 ho2
          rw [hinputs] at ho2
          obtain ⟨hw, hnx⟩ := mem_buildSpendingTx ho2
          have hexcl : (spendExclusions env s1 vault_id false).getD [] =
              env.walletUtxos.filter
                (fun u => decide (u ∈ s1.get_frozen_utxos vault_id)) := by
            simp [spendExclusions]
          rw [hexcl] at hnx
          exact not_frozen_of_selected hw hnx
        have hold_frozen : ∀ r ∈ s1.proposals, r.snd.fst = vault_id →
            ∀ o2 ∈ r.snd.snd.psbtInputs, o2 ∈ s1.get_frozen_utxos vault_id := by
          intro r hr hv o2 ho2
          exact mem_get_frozen_utxos_of_row (hA r hr o2 ho2) hv
        rcases mem_insertOrIgnore_elim h1 with h1o | h1n <;>
          rcases mem_insertOrIgnore_elim h2 with h2o | h2n
        · exact hB r1 h1o r2 h2o hne hsamev o ho1
        · subst h2n
          intro ho2
          exact hfrozen_new o ho2 (hold_frozen r1 h1o hsamev o ho1)
        · subst h1n
          intro ho2
          exact hfrozen_new o ho1 (hold_frozen r2 h2o hsamev.symm o ho2)
        · subst h1n
          subst h2n
          exact absurd rfl hne
  | delete store pid =>
      constructor
      · intro r hr o ho
        rw [delete_proposal_proposals] at hr
        have hmem := List.mem_filter.mp hr
        have hne : r.fst ≠ pid := by simpa using hmem.2
        rw [delete_proposal_frozen]
        refine List.mem_filter.mpr ⟨hA r hmem.1 o ho, ?_⟩
        simp only [decide_eq_true_iff]
        intro hsome
        exact hne (Option.some.inj hsome)
      · intro r1 h1 r2 h2 hne hv o ho
        rw [delete_proposal_proposals] at h1 h2
        exact hB r1 (List.mem_filter.mp h1).1 r2 (List.mem_filter.mp h2).1 hne hv o ho

theorem spendInv_empty : SpendInv Store.empty := by
  constructor
  · intro r hr
    simp [Store.empty] at hr
  · intro r1 h1
    simp [Store.empty] at h1

theorem spendInv_reachable {db : Store}
    (h : Relation.ReflTransGen SpendStep Store.empty db) : SpendInv db := by
  induction h with
  | refl => exact spendInv_empty
  | tail hab hbc ih => exact spendStep_preserves_inv ih hbc

/-- Claim C3 (amended): saving a pending spending proposal freezes every
input outpoint of its unsigned transaction for its vault; a later
`internal_spend` with `skip_frozen_utxos = false` passes as exclusions
exactly the frozen UTXOs of that vault that are present in the wallet's
current UTXO set (not the whole frozen set, as the claim stated), and
hands them to the wallet builder; and along every trace of
proposal-creation and proposal-deletion steps, the transactions of two
distinct pending proposals of one vault never share an input UTXO. -/
theorem C3_frozen_utxo_exclusivity :
    (∀ (s : Store) (pid pol : EvId) (p : ProposalV1), ∀ o ∈ p.psbtInputs,
      o ∈ (s.save_proposal pid pol p).get_frozen_utxos pol) ∧
    (∀ (env : WalletEnv) (store : Store) (vault_id : EvId) (o : TxOutPoint),
      o ∈ (spendExclusions env store vault_id false).getD [] ↔
        (o ∈ env.walletUtxos ∧ o ∈ store.get_frozen_utxos vault_id)) ∧
    (∀ (env : WalletEnv) (store : Store) (vault_id : EvId) (fr : FeeRate)
       (utxos : Option (List TxOutPoint)) (sp : SpendingProposal),
      (SmartVaults.internal_spend env store vault_id fr utxos false).snd =
        Except.ok sp →
      sp.psbtInputs = buildSpendingTx env.walletUtxos utxos
        ((spendExclusions env store vault_id false).getD [])) ∧
    (∀ db : Store, Relation.ReflTransGen SpendStep Store.empty db →
      ∀ r1 ∈ db.proposals, ∀ r2 ∈ db.proposals,
        r1.fst ≠ r2.fst → r1.snd.fst = r2.snd.fst →
        ∀ o ∈ r1.snd.snd.psbtInputs, o ∉ r2.snd.snd.psbtInputs) := by
  refine ⟨?_, ?_, ?_, ?_⟩
  · intro s pid pol p o ho
    exact mem_get_frozen_utxos_of_row (save_proposal_freezes s pid pol p ho) rfl
  · intro env store vault_id o
    simp [spendExclusions, List.mem_filter]
  · intro env store vault_id fr utxos sp h
    exact internal_spend_ok_inputs h
  · intro db hdb
    exact (spendInv_reachable hdb).2

/-- Claim C3 counterexample: the outpoint (2,0) is frozen for vault 1
but absent from the wallet's UTXO set, so the exclusion list passed to
the builder is empty — `internal_spend` does not pass all currently
frozen UTXOs of the vault, only those still in the wallet. -/
theorem C3_counterexample :
    (2, 0) ∈ storeFrozen.get_frozen_utxos 1 ∧
    (spendExclusions walletSmall storeFrozen 1 false).getD [] = [] ∧
    (2, 0) ∉ (spendExclusions walletSmall storeFrozen 1 false).getD [] := by
  refine ⟨by decide, rfl, ?_⟩
  intro h
  simp [spendExclusions, walletSmall] at h

/-- Claim C3 witness: the first proposal freezes (3,0); a second build
over the updated store selects no shared input, and along the two-step
trace the two indexed pending proposals of vault 1 have disjoint
inputs. -/
theorem C3_witness :
    ((3, 0) ∈ storeAfterFirst.get_frozen_utxos 1 ∧
     spSecond.psbtInputs = buildSpendingTx walletTwo.walletUtxos none
       ((spendExclusions walletTwo storeAfterFirst 1 false).getD []) ∧
     (3, 0) ∉ (ProposalV1.mk ([] : List TxOutPoint) 0).psbtInputs) := by
  have step1 : SpendStep Store.empty storeAfterFirst :=
    SpendStep.create walletTwo Store.empty 1 7 (FeeRate.rate 2) none spFirst 0 rfl
  have step2 : SpendStep storeAfterFirst storeAfterSecond :=
    SpendStep.create walletTwo storeAfterFirst 1 8 (FeeRate.rate 2) none spSecond 0 rfl
  have htr : Relation.ReflTransGen SpendStep Store.empty storeAfterSecond :=
    Relation.ReflTransGen.tail (Relation.ReflTransGen.single step1) step2
  refine ⟨?_, ?_, ?_⟩
  · exact C3_frozen_utxo_exclusivity.1 Store.empty 7 1
      (ProposalV1.mk spFirst.psbtInputs 0) (3, 0) (by decide)
  · exact C3_frozen_utxo_exclusivity.2.2.1 walletTwo storeAfterFirst 1
      (FeeRate.rate 2) none spSecond rfl
  · exact C3_frozen_utxo_exclusivity.2.2.2 storeAfterSecond htr
      (7, (1, ProposalV1.mk spFirst.psbtInputs 0)) (by decide)
      (8, (1, ProposalV1.mk ([] : List TxOutPoint) 0)) (by decide)
      (by decide) (by decide) (3, 0) (by decide)
